import Mathlib

/-!
Shallow embedding of the cachecraft backend (src/backend/app.py): a per-user
query cache with TTL expiry, difflib-based fuzzy key matching, an LLM-driven
prefetch pipeline, a bounded hit log and per-user analytics counters.

Modelling conventions: Python `int(time.time())` timestamps are `Int`;
Python floats (confidences, thresholds, ratios) are `ℚ` (every comparison the
code performs on them is exact at the values involved); a Python dict used as
the per-user cache is an association list with insertion-order iteration and
replace-in-place update, matching dict semantics; exceptions are explicit
(`Option` results, or a `Bool` crash flag where partial mutation matters).
-/

namespace Cachecraft

/-! ### Global configuration constants (module top of app.py) -/

def CACHE_EXPIRY_SECONDS : Int := 300

def N_HISTORY : Nat := 3

def PREFETCH_CONFIDENCE_THRESHOLD : ℚ := 6/10

def SIM_BACKEND_LATENCY : ℚ := 500

def SIM_CACHE_LATENCY : ℚ := 30

/-! ### Cache entries and the per-user cache dict -/

/-- A cache entry dict: `{"result", "timestamp", "expiry", "source", "LLM_Confidence"?}`.
`llmConfidence` is `none` for backend-filled entries (the key is absent). -/
structure Entry where
  result : String
  timestamp : Int
  expiry : Int
  source : String
  llmConfidence : Option ℚ
deriving DecidableEq, Repr

/-- The per-user cache: a Python dict from normalized key to entry, modelled as
an association list in insertion order. -/
abbrev Cache := List (String × Entry)

/-- `cache.get(k)` / `cache[k]`. -/
def dictGet : Cache → String → Option Entry
  | [], _ => none
  | p :: rest, k => if p.1 = k then some p.2 else dictGet rest k

/-- `cache[k] = v`: replace in place if the key exists, else append (dict
insertion-order semantics). -/
def dictSet : Cache → String → Entry → Cache
  | [], k, v => [(k, v)]
  | p :: rest, k, v => if p.1 = k then (k, v) :: rest else p :: dictSet rest k v

/-- `k in cache and (now - cache[k]["timestamp"]) < CACHE_EXPIRY_SECONDS`:
the liveness test the code applies before skipping a prefetch. -/
def liveAt (cache : Cache) (k : String) (now : Int) : Bool :=
  match dictGet cache k with
  | some e => now - e.timestamp < CACHE_EXPIRY_SECONDS
  | none => false

/-! ### normalize_query -/

/-- Python `str.strip()` on the character list. -/
def pyStrip (cs : List Char) : List Char :=
  ((cs.dropWhile Char.isWhitespace).reverse.dropWhile Char.isWhitespace).reverse

/-- Python `str.lower()` (ASCII range, which is all the code relies on). -/
def pyLower (cs : List Char) : List Char :=
  cs.map Char.toLower

/-- `normalize_query(query) = query.strip().lower()`. -/
def normalizeQuery (q : String) : String :=
  ⟨pyLower (pyStrip q.data)⟩

/-! ### difflib: SequenceMatcher ratio and get_close_matches

The code calls `difflib.get_close_matches(norm_query, cache.keys(), n=1,
cutoff=0.85)`. All keys involved are far below the 200-character autojunk
threshold, so no character is junk and `find_longest_match` is the plain
longest-matching-block dynamic program with Python's tie-breaking (smallest
ending row, then smallest column). -/

/-- One row of the `find_longest_match` dynamic program: given the current
character `ai` of sequence `a`, the remaining characters of `b`, the value
diagonally above-left, and the tail of the previous row, produce the run
lengths `newj2len` for this row. -/
def flmRow (ai : Char) : List Char → Nat → List Nat → List Nat
  | [], _, _ => []
  | c :: bs, diag, prev =>
    (if c = ai then diag + 1 else 0) :: flmRow ai bs (prev.headD 0) prev.tail

/-- Scan a DP row (row index `i`, columns from `j`) updating the best block
`(besti, bestj, bestsize)`; a new best is taken only on a strictly larger
size, reproducing Python's tie-breaking. -/
def rowBest (i : Nat) : List Nat → Nat → (Nat × Nat × Nat) → (Nat × Nat × Nat)
  | [], _, best => best
  | k :: rest, j, best =>
    rowBest i rest (j + 1) (if best.2.2 < k then (i + 1 - k, j + 1 - k, k) else best)

/-- Row sweep of `find_longest_match` over the rows of `a`. -/
def flmRows (b : List Char) : List Char → Nat → List Nat → (Nat × Nat × Nat) → (Nat × Nat × Nat)
  | [], _, _, best => best
  | ai :: as_, i, prev, best =>
    let row := flmRow ai b 0 prev
    flmRows b as_ (i + 1) row (rowBest i row 0 best)

/-- `SequenceMatcher.find_longest_match` over whole sequences (no junk):
returns `(i, j, size)` of the longest matching block, ties broken exactly as
Python breaks them. -/
def findLongestMatch (a b : List Char) : Nat × Nat × Nat :=
  flmRows b a 0 (List.replicate b.length 0) (0, 0, 0)

/-- Total size of all matching blocks (the `sum(size for _, _, size in
get_matching_blocks())` that `ratio` uses), by Ratcliff/Obershelp recursion on
both sides of the longest block. The fuel is an upper bound on the recursion
depth; `|a| + |b|` always suffices. -/
def matchingTotal : Nat → List Char → List Char → Nat
  | 0, _, _ => 0
  | fuel + 1, a, b =>
    let r := findLongestMatch a b
    if r.2.2 = 0 then 0
    else
      matchingTotal fuel (a.take r.1) (b.take r.2.1) + r.2.2 +
        matchingTotal fuel (a.drop (r.1 + r.2.2)) (b.drop (r.2.1 + r.2.2))

/-- `SequenceMatcher(a, b).ratio() = 2*M / (len(a)+len(b))` (1.0 when both are
empty, as in `difflib._calculate_ratio`). -/
def ratioQ (a b : List Char) : ℚ :=
  if a.length + b.length = 0 then 1
  else mkRat (2 * (matchingTotal (a.length + b.length) a b : Int)) (a.length + b.length)

/-- Python string `<` (lexicographic on code points). -/
def pyListLt : List Char → List Char → Bool
  | [], [] => false
  | [], _ :: _ => true
  | _ :: _, [] => false
  | a :: as_, b :: bs =>
    if a.val < b.val then true
    else if b.val < a.val then false
    else pyListLt as_ bs

/-- `difflib.get_close_matches(word, possibilities, n=1, cutoff)`: keep the
possibilities whose ratio against `word` reaches the cutoff, then take the
largest `(ratio, string)` pair as `heapq.nlargest` orders them. -/
def getCloseMatches (word : String) (possibilities : List String) (cutoff : ℚ) :
    Option String :=
  let cands := possibilities.filterMap fun x =>
    let r := ratioQ x.data word.data
    if cutoff ≤ r then some (r, x) else none
  (cands.foldl (fun best c =>
    match best with
    | none => some c
    | some b =>
      if b.1 < c.1 ∨ (b.1 = c.1 ∧ pyListLt b.2.data c.2.data) then some c else some b)
    none).map Prod.snd

/-! ### Hit log -/

/-- One hit-log record: `{"query", "source", "time"}`. -/
structure HitRec where
  query : String
  source : String
  time : Int
deriving DecidableEq, Repr

/-- `hit_log.append(rec)` followed by `if len(hit_log) > 10: hit_log.pop(0)`. -/
def recordHit (log : List HitRec) (r : HitRec) : List HitRec :=
  if (log ++ [r]).length > 10 then (log ++ [r]).drop 1 else log ++ [r]

/-! ### Analytics -/

/-- The per-user analytics dict created by `get_user_data`. -/
structure Analytics where
  apiCallsSaved : Nat
  totalBackendCalls : Nat
  totalCacheHits : Nat
deriving DecidableEq, Repr

/-- The two increments every cache-hit branch of `search` performs. -/
def hitInc (a : Analytics) : Analytics :=
  { a with apiCallsSaved := a.apiCallsSaved + 1, totalCacheHits := a.totalCacheHits + 1 }

/-- The increment of the miss branch of `search`. -/
def backendInc (a : Analytics) : Analytics :=
  { a with totalBackendCalls := a.totalBackendCalls + 1 }

/-! ### Predictions as Python/JSON values

`json.loads` output and the per-user prediction lists are arbitrary JSON
values; `prefetch_predictions` indexes into them with Python dict semantics,
so the model keeps them as a JSON value type. Numbers keep Python's
int/float distinction (a JSON number is an `int` unless it has a fraction or
exponent part), which `set_confidence`'s `isinstance(conf, float)` relies on. -/

inductive Json where
  | null
  | bool (b : Bool)
  | int (n : Int)
  | float (q : ℚ)
  | str (s : String)
  | arr (elems : List Json)
  | obj (fields : List (String × Json))

/-- Python dict lookup on a parsed JSON object (with duplicate keys, the last
occurrence wins, as in `json.loads`). -/
def pyLookup (kvs : List (String × Json)) (k : String) : Option Json :=
  (kvs.reverse.find? fun p => p.1 = k).map Prod.snd

/-- `pred["query"]` followed by `.strip().lower()`: yields the string, or
`none` when the Python code would raise (`pred` not a dict, key missing, or
value not a string). -/
def predQuery : Json → Option String
  | .obj kvs =>
    match pyLookup kvs "query" with
    | some (.str s) => some s
    | _ => none
  | _ => none

/-- `pred.get("confidence", 1.0)` as used in the `conf < threshold`
comparison: numeric value, default `1.0`; `none` when the comparison would
raise (non-numeric value or `pred` not a dict). -/
def predConfidence : Json → Option ℚ
  | .obj kvs =>
    match pyLookup kvs "confidence" with
    | some (.int n) => some (mkRat n 1)
    | some (.float q) => some q
    | some _ => none
    | none => some 1
  | _ => none

/-! ### The per-user state and `search` -/

/-- One user's four data structures (`USER_CACHE[u]`, `USER_HIT_LOG[u]`,
`USER_PREDICTIONS[u]`, `USER_ANALYTICS[u]`). -/
structure UserState where
  cache : Cache
  hitLog : List HitRec
  predictions : List Json
  analytics : Analytics

/-- The `{"result", "source"}` payload `search` returns. -/
structure SearchOut where
  result : String
  source : String
deriving DecidableEq, Repr

/-- Source tag of an exact (non-fuzzy) cache hit: `"cache"` when the entry was
backend-filled, otherwise the entry's own source (the `elif`/`else` branches
of the hit case). -/
def exactHitSource (e : Entry) : String :=
  if e.source = "backend" then "cache" else e.source

/-- The miss branch: fetch from the (simulated) backend, overwrite the entry
at the normalized key, count a backend call. -/
def missFill (now : Int) (query normQuery : String) (st : UserState) :
    SearchOut × UserState :=
  (⟨"Backend result for " ++ query, "backend"⟩,
    { st with
        cache := dictSet st.cache normQuery
          ⟨"Backend result for " ++ query, now, CACHE_EXPIRY_SECONDS, "backend", none⟩,
        analytics := backendInc st.analytics })

/-- The branch logic of `search` (lines 118–159 of app.py): exact lookup,
fuzzy fallback via `get_close_matches` over all cached keys when no exact
entry exists, liveness test, hit/miss accounting and cache fill. -/
def searchCore (now : Int) (query : String) (st : UserState) :
    SearchOut × UserState :=
  match dictGet st.cache (normalizeQuery query) with
  | some e =>
    if now - e.timestamp < CACHE_EXPIRY_SECONDS then
      (⟨e.result, exactHitSource e⟩, { st with analytics := hitInc st.analytics })
    else missFill now query (normalizeQuery query) st
  | none =>
    match getCloseMatches (normalizeQuery query) (st.cache.map Prod.fst) (mkRat 85 100) with
    | some fk =>
      match dictGet st.cache fk with
      | some e =>
        if now - e.timestamp < CACHE_EXPIRY_SECONDS then
          (⟨e.result, "fuzzy_cache"⟩, { st with analytics := hitInc st.analytics })
        else missFill now query (normalizeQuery query) st
      | none => missFill now query (normalizeQuery query) st
    | none => missFill now query (normalizeQuery query) st

/-- `search(query, user)`: branch logic followed by the hit-log append/cap.
The background `predict_and_prefetch` thread is modelled separately
(`predictAndPrefetch`); it is not part of the synchronous response. -/
def search (now : Int) (query : String) (st : UserState) :
    SearchOut × UserState :=
  ((searchCore now query st).1,
    { (searchCore now query st).2 with
        hitLog := recordHit (searchCore now query st).2.hitLog
          ⟨query, (searchCore now query st).1.source, now⟩ })

/-! ### Dashboard -/

def missCountOf (log : List HitRec) : Nat :=
  (log.filter fun h => h.source == "backend").length

def hitCountOf (log : List HitRec) : Nat :=
  (log.filter fun h =>
    h.source == "cache" || h.source == "predicted" || h.source == "fuzzy_cache").length

/-- `miss_rate = miss_count / (miss_count + hit_count) if ... > 0 else 0.0`. -/
def missRateOf (log : List HitRec) : ℚ :=
  if missCountOf log + hitCountOf log > 0 then
    (missCountOf log : ℚ) / ((missCountOf log : ℚ) + (hitCountOf log : ℚ))
  else 0

/-- `avg_latency_saved` from the analytics counters. -/
def avgLatencySavedOf (a : Analytics) : ℚ :=
  if a.totalBackendCalls + a.totalCacheHits > 0 then
    (a.apiCallsSaved : ℚ) * (SIM_BACKEND_LATENCY - SIM_CACHE_LATENCY) /
      ((a.totalBackendCalls : ℚ) + (a.totalCacheHits : ℚ))
  else 0

/-- The dashboard response payload. -/
structure DashboardOut where
  cacheList : List (String × String × Int)
  last10Hits : List HitRec
  missRate : ℚ
  predictions : List Json
  apiCallsSaved : Nat
  totalBackendCalls : Nat
  totalCacheHits : Nat
  avgLatencySaved : ℚ

/-- `dashboard(user)` as a pure projection of one user's state. -/
def dashboardView (now : Int) (st : UserState) : DashboardOut where
  cacheList := st.cache.filterMap fun p =>
    let expiresIn := p.2.expiry - (now - p.2.timestamp)
    if expiresIn > 0 then some (p.1, p.2.source, expiresIn) else none
  last10Hits := st.hitLog
  missRate := missRateOf st.hitLog
  predictions := st.predictions
  apiCallsSaved := st.analytics.apiCallsSaved
  totalBackendCalls := st.analytics.totalBackendCalls
  totalCacheHits := st.analytics.totalCacheHits
  avgLatencySaved := avgLatencySavedOf st.analytics

/-! ### `json.loads` (the subset the pipeline can meet)

`get_predictions_from_llm` feeds `json.loads` the first `[...]` span of the
LLM reply after replacing single quotes by double quotes. The model parses
the JSON grammar for values built from arrays, objects, strings (without
escape sequences — a backslash makes the parse fail, conservatively),
numbers, booleans and null; any other input yields `none`, the model of the
`json.JSONDecodeError` the code catches. -/

/-- JSON whitespace skipping (space, tab, newline, carriage return). -/
def skipWs : List Char → List Char
  | [] => []
  | c :: cs =>
    if c = ' ' ∨ c = '\t' ∨ c = '\n' ∨ c = '\r' then skipWs cs else c :: cs

/-- String literal body after the opening quote: plain characters up to the
closing quote; escape sequences are not produced by the pipeline and are
rejected. -/
def parseStringLit : List Char → Option (String × List Char)
  | [] => none
  | c :: cs =>
    if c = '"' then some ("", cs)
    else if c = '\\' then none
    else (parseStringLit cs).map fun r => (⟨c :: r.1.data⟩, r.2)

/-- A non-empty digit run: value, digit count, rest. -/
def parseDigits : List Char → Option (Nat × Nat × List Char)
  | [] => none
  | c :: cs =>
    if c.isDigit then
      match parseDigits cs with
      | some (v, n, rest) => some ((c.toNat - 48) * 10 ^ n + v, n + 1, rest)
      | none => some (c.toNat - 48, 1, cs)
    else none

/-- Exponent part `e|E [+|-] digits`, as a power of ten, when present. -/
def parseExpPart (cs : List Char) : Option (Int × List Char) :=
  match cs with
  | c :: rest =>
    if c = 'e' ∨ c = 'E' then
      let (esgn, rest1) :=
        match rest with
        | '-' :: r => ((-1 : Int), r)
        | '+' :: r => ((1 : Int), r)
        | _ => ((1 : Int), rest)
      match parseDigits rest1 with
      | some (ev, _, rest2) => some (esgn * ev, rest2)
      | none => none
    else some (0, cs)
  | [] => some (0, [])

/-- The rational value `sign * (ip + fp / 10^fc) * 10^e`, computed with
kernel-reducible integer arithmetic. -/
def decimalValue (neg : Bool) (ip fp fc : Nat) (e : Int) : ℚ :=
  mkRat ((if neg then -1 else 1) * ((ip : Int) * 10 ^ fc + fp) * 10 ^ e.toNat)
    (10 ^ (fc + (-e).toNat))

/-- A JSON number starting at `cs` (first char a digit or `-`): Python's
int/float distinction is kept — the result is a float exactly when a fraction
or exponent part is present. -/
def parseNumber (cs : List Char) : Option (Json × List Char) :=
  let (neg, cs1) :=
    match cs with
    | '-' :: r => (true, r)
    | _ => (false, cs)
  match parseDigits cs1 with
  | none => none
  | some (ip, _, r1) =>
    match r1 with
    | '.' :: r2 =>
      match parseDigits r2 with
      | none => none
      | some (fp, fc, r3) =>
        match parseExpPart r3 with
        | some (e, r4) => some (.float (decimalValue neg ip fp fc e), r4)
        | none => none
    | _ =>
      match parseExpPart r1 with
      | some (e, r4) =>
        if e = 0 ∧ (r1.head? ≠ some 'e' ∧ r1.head? ≠ some 'E') then
          some (.int (if neg then -(ip : Int) else (ip : Int)), r4)
        else some (.float (decimalValue neg ip 0 0 e), r4)
      | none => none

mutual

/-- One JSON value starting at `cs` (leading whitespace allowed). -/
def parseVal : Nat → List Char → Option (Json × List Char)
  | 0, _ => none
  | fuel + 1, cs =>
    match skipWs cs with
    | [] => none
    | c :: rest =>
      if c = 'n' then
        match rest with
        | 'u' :: 'l' :: 'l' :: r => some (.null, r)
        | _ => none
      else if c = 't' then
        match rest with
        | 'r' :: 'u' :: 'e' :: r => some (.bool true, r)
        | _ => none
      else if c = 'f' then
        match rest with
        | 'a' :: 'l' :: 's' :: 'e' :: r => some (.bool false, r)
        | _ => none
      else if c = '"' then
        (parseStringLit rest).map fun r => (.str r.1, r.2)
      else if c = '[' then
        match skipWs rest with
        | ']' :: r => some (.arr [], r)
        | _ => (parseElems fuel rest).map fun r => (.arr r.1, r.2)
      else if c = '\x7b' then
        match skipWs rest with
        | '\x7d' :: r => some (.obj [], r)
        | _ => (parseFields fuel rest).map fun r => (.obj r.1, r.2)
      else if c.isDigit ∨ c = '-' then parseNumber (c :: rest)
      else none

/-- Array elements after `[`, ending at `]`. -/
def parseElems : Nat → List Char → Option (List Json × List Char)
  | 0, _ => none
  | fuel + 1, cs =>
    match parseVal fuel cs with
    | none => none
    | some (v, r) =>
      match skipWs r with
      | ',' :: r2 => (parseElems fuel r2).map fun t => (v :: t.1, t.2)
      | ']' :: r2 => some ([v], r2)
      | _ => none

/-- Object fields after the opening brace, ending at the closing brace. -/
def parseFields : Nat → List Char → Option (List (String × Json) × List Char)
  | 0, _ => none
  | fuel + 1, cs =>
    match skipWs cs with
    | '"' :: r =>
      match parseStringLit r with
      | none => none
      | some (k, r1) =>
        match skipWs r1 with
        | ':' :: r2 =>
          match parseVal fuel r2 with
          | none => none
          | some (v, r3) =>
            match skipWs r3 with
            | ',' :: r4 => (parseFields fuel r4).map fun t => ((k, v) :: t.1, t.2)
            | '\x7d' :: r4 => some ([(k, v)], r4)
            | _ => none
        | _ => none
    | _ => none

end

/-- `json.loads(s)`: parse one value, require only whitespace after it. -/
def pyJsonLoads (s : String) : Option Json :=
  match parseVal (2 * s.data.length + 2) s.data with
  | some (v, rest) => if skipWs rest = [] then some v else none
  | none => none

/-! ### `get_predictions_from_llm` -/

/-- Outcome of the `requests.post` call to the LLM endpoint: `failure` covers
every exception up to and including extracting `content` (network error,
non-2xx status, missing response fields); `ok content` is the reply text. -/
inductive HttpOutcome where
  | failure
  | ok (content : String)

/-- Everything up to and including the first `]` of the tail, when present. -/
def takeUntilClose : List Char → Option (List Char)
  | [] => none
  | c :: cs =>
    if c = ']' then some [']']
    else (takeUntilClose cs).map (c :: ·)

/-- `re.search(r'\[.*?\]', content, re.DOTALL)`: the span from the first `[`
to the first `]` after it; no match when there is no such pair. -/
def firstBracketSpan : List Char → Option (List Char)
  | [] => none
  | c :: cs =>
    if c = '[' then (takeUntilClose cs).map ('[' :: ·)
    else firstBracketSpan cs

/-- `content.replace("'", '"')` applied to the extracted span. -/
def replaceQuotes (cs : List Char) : List Char :=
  cs.map fun c => if c = Char.ofNat 39 then '"' else c

/-- `get_predictions_from_llm`: on any exception return `[]`; otherwise
extract the first bracket span, swap quotes, `json.loads` it (a parse error
is an exception caught by the same handler), and return the parsed list. -/
def getPredictionsFromLLM (resp : HttpOutcome) : List Json :=
  match resp with
  | .failure => []
  | .ok content =>
    match firstBracketSpan content.data with
    | none => []
    | some span =>
      match pyJsonLoads ⟨replaceQuotes span⟩ with
      | some (.arr xs) => xs
      | _ => []

/-! ### `prefetch_predictions` -/

/-- `prefetch_predictions(predictions, cache)`: walk the candidate list,
skipping low-confidence candidates and candidates whose normalized key
already holds a live entry, overwriting the rest with a placeholder
`predicted` entry. The `Bool` is `true` when the Python code raises (e.g.
`KeyError` on a candidate without `"query"`): mutation up to that point is
kept, the remaining candidates are not processed. -/
def prefetchPredictions (thr : ℚ) (now : Int) :
    List Json → Cache → Cache × Bool
  | [], cache => (cache, false)
  | p :: rest, cache =>
    match predQuery p with
    | none => (cache, true)
    | some rawq =>
      match predConfidence p with
      | none => (cache, true)
      | some conf =>
        if conf < thr then prefetchPredictions thr now rest cache
        else if liveAt cache (normalizeQuery rawq) now then
          prefetchPredictions thr now rest cache
        else
          prefetchPredictions thr now rest
            (dictSet cache (normalizeQuery rawq)
              ⟨"Predicted backend result for " ++ rawq, now, CACHE_EXPIRY_SECONDS,
                "predicted", some conf⟩)

/-- The body of the `predict_and_prefetch` background task: parse the LLM
reply, store it as the user's current prediction list, then prefetch into the
cache. The flag reports a crash inside `prefetch_predictions` (contained in
the daemon thread, never surfaced to the request). -/
def predictAndPrefetch (thr : ℚ) (now : Int) (resp : HttpOutcome)
    (st : UserState) : UserState × Bool :=
  let preds := getPredictionsFromLLM resp
  let r := prefetchPredictions thr now preds st.cache
  ({ st with predictions := preds, cache := r.1 }, r.2)

/-! ### `set_confidence`, `refresh`, `export` -/

/-- `set_confidence`: accept iff `data.get("confidence")` is a Python float
in `[0, 1]` (a JSON integer is an `int`, not a `float`, and is rejected);
returns the new threshold and the success flag, the threshold unchanged on
rejection. -/
def setConfidence (body : Option Json) (thr : ℚ) : ℚ × Bool :=
  match body with
  | some (.float q) => if 0 ≤ q ∧ q ≤ 1 then (q, true) else (thr, false)
  | _ => (thr, false)

/-- `refresh(query, user)`: unconditional overwrite at the normalized key
with a fresh backend-tagged entry. -/
def refresh (now : Int) (query : String) (st : UserState) :
    String × UserState :=
  let normQuery := normalizeQuery query
  let result := "Backend result for " ++ query ++ " (refreshed)"
  (result,
    { st with
        cache := dictSet st.cache normQuery
          ⟨result, now, CACHE_EXPIRY_SECONDS, "backend", none⟩ })

/-- The export response: the CSV header row plus one `(query, source,
timestamp, expiry)` row per cache entry in dict order, or the JSON dump. -/
inductive ExportOut where
  | csv (header : List String) (rows : List (String × String × Int × Int))
  | json (cache : Cache) (hits : List HitRec) (preds : List Json)

/-- `export_dashboard(format, user)`. -/
def exportDashboard (fmt : String) (st : UserState) : ExportOut :=
  if fmt = "csv" then
    .csv ["query", "source", "timestamp", "expiry"]
      (st.cache.map fun p => (p.1, p.2.source, p.2.timestamp, p.2.expiry))
  else .json st.cache st.hitLog st.predictions

/-! ### The process-wide per-user maps and `get_user_data` -/

/-- The four module-level dicts keyed by user. -/
structure Global where
  userCache : String → Option Cache
  userHitLog : String → Option (List HitRec)
  userPredictions : String → Option (List Json)
  userAnalytics : String → Option Analytics

/-- Pointwise update of one per-user map. -/
def updMap {α : Type} (m : String → Option α) (u : String) (v : α) :
    String → Option α :=
  fun x => if x = u then some v else m x

/-- `get_user_data(user)`: lazily create the user's four structures when the
user is unseen, else leave everything untouched. -/
def getUserData (u : String) (g : Global) : Global :=
  if (g.userCache u).isSome then g
  else
    { userCache := updMap g.userCache u []
      userHitLog := updMap g.userHitLog u []
      userPredictions := updMap g.userPredictions u []
      userAnalytics := updMap g.userAnalytics u ⟨0, 0, 0⟩ }

/-- The user's state as the tuple `get_user_data` returns (defined for a
global in which the user is present; the `getD` defaults are never used after
`getUserData`). -/
def userStateOf (u : String) (g : Global) : UserState where
  cache := (g.userCache u).getD []
  hitLog := (g.userHitLog u).getD []
  predictions := (g.userPredictions u).getD []
  analytics := (g.userAnalytics u).getD ⟨0, 0, 0⟩

/-- Write a user's (mutated-in-place in Python) state back into the maps. -/
def writeBack (u : String) (st : UserState) (g : Global) : Global where
  userCache := updMap g.userCache u st.cache
  userHitLog := updMap g.userHitLog u st.hitLog
  userPredictions := updMap g.userPredictions u st.predictions
  userAnalytics := updMap g.userAnalytics u st.analytics

/-- The `/search` endpoint at the global level (synchronous part). -/
def searchG (now : Int) (u query : String) (g : Global) : SearchOut × Global :=
  let g1 := getUserData u g
  let r := search now query (userStateOf u g1)
  (r.1, writeBack u r.2 g1)

/-- The `/dashboard` endpoint at the global level. -/
def dashboardG (now : Int) (u : String) (g : Global) : DashboardOut × Global :=
  let g1 := getUserData u g
  (dashboardView now (userStateOf u g1), g1)

/-- The `/predict` endpoint at the global level. -/
def predictG (u : String) (g : Global) : List Json × Global :=
  let g1 := getUserData u g
  ((userStateOf u g1).predictions, g1)

/-- The `/refresh` endpoint at the global level. -/
def refreshG (now : Int) (u query : String) (g : Global) : String × Global :=
  let g1 := getUserData u g
  let r := refresh now query (userStateOf u g1)
  (r.1, writeBack u r.2 g1)

/-- The `/export` endpoint at the global level. -/
def exportG (fmt u : String) (g : Global) : ExportOut × Global :=
  let g1 := getUserData u g
  (exportDashboard fmt (userStateOf u g1), g1)

/-- The four per-user maps hold exactly the same set of user keys. -/
def sameKeys (g : Global) : Prop :=
  ∀ u, ((g.userCache u).isSome ↔ (g.userHitLog u).isSome) ∧
    ((g.userCache u).isSome ↔ (g.userPredictions u).isSome) ∧
    ((g.userCache u).isSome ↔ (g.userAnalytics u).isSome)

/-- The empty process state at startup. -/
def emptyGlobal : Global :=
  ⟨fun _ => none, fun _ => none, fun _ => none, fun _ => none⟩

/-- The user's live key set, scanned as the spec's fuzzy-lookup description
reads (claim-side definition, to compare with the code's scan over all
cached keys). -/
def liveKeys (cache : Cache) (now : Int) : List String :=
  (cache.filter fun p => now - p.2.timestamp < p.2.expiry).map Prod.fst

/-- A `set_confidence` body the endpoint accepts: a float in `[0, 1]`. -/
def validConfidenceBody (b : Option Json) : Prop :=
  ∃ q : ℚ, b = some (Json.float q) ∧ 0 ≤ q ∧ q ≤ 1

/-! ## Basic lemmas -/

theorem dictGet_dictSet_self (c : Cache) (k : String) (v : Entry) :
    dictGet (dictSet c k v) k = some v := by
  induction c with
  | nil => simp [dictSet, dictGet]
  | cons p rest ih =>
    by_cases h : p.1 = k
    · simp [dictSet, dictGet, h]
    · simp [dictSet, dictGet, h, ih]

theorem dictGet_dictSet_ne (c : Cache) (k k' : String) (v : Entry)
    (h : k' ≠ k) : dictGet (dictSet c k v) k' = dictGet c k' := by
  induction c with
  | nil => simp [dictSet, dictGet, Ne.symm h]
  | cons p rest ih =>
    by_cases hp : p.1 = k
    · by_cases hp' : p.1 = k'
      · exact absurd (hp' ▸ hp) h
      · simp [dictSet, dictGet, hp, hp', Ne.symm h]
    · simp [dictSet, dictGet, hp, ih]

theorem exactHitSource_ne (e : Entry) : exactHitSource e ≠ "backend" := by
  unfold exactHitSource
  split
  · decide
  · assumption

theorem searchCore_hitLog (now : Int) (q : String) (st : UserState) :
    (searchCore now q st).2.hitLog = st.hitLog := by
  unfold searchCore missFill
  repeat' split
  all_goals rfl

theorem searchCore_predictions (now : Int) (q : String) (st : UserState) :
    (searchCore now q st).2.predictions = st.predictions := by
  unfold searchCore missFill
  repeat' split
  all_goals rfl

/-- Every branch of `searchCore` either reports a backend miss (counting one
backend call) or a hit under a non-`"backend"` source tag (counting one cache
hit and one saved call). -/
theorem searchCore_cases (now : Int) (q : String) (st : UserState) :
    ((searchCore now q st).1.source = "backend" ∧
      (searchCore now q st).2.analytics = backendInc st.analytics) ∨
    ((searchCore now q st).1.source ≠ "backend" ∧
      (searchCore now q st).2.analytics = hitInc st.analytics) := by
  unfold searchCore missFill
  repeat' split
  all_goals first
    | (left; exact ⟨rfl, rfl⟩)
    | (right; exact ⟨exactHitSource_ne _, rfl⟩)
    | (right
       refine ⟨?_, rfl⟩
       show ("fuzzy_cache" : String) ≠ "backend"
       decide)

/-- The hit log evolves by exactly one `recordHit` per `search`. -/
theorem search_hitLog (now : Int) (q : String) (st : UserState) :
    (search now q st).2.hitLog =
      recordHit st.hitLog ⟨q, (search now q st).1.source, now⟩ := by
  show recordHit (searchCore now q st).2.hitLog _ = _
  rw [searchCore_hitLog]
  rfl

theorem foldl_recordHit (rs : List HitRec) :
    List.foldl recordHit [] rs = rs.drop (rs.length - 10) := by
  induction rs using List.reverseRecOn with
  | nil => rfl
  | append_singleton rs r ih =>
    rw [List.foldl_append, List.foldl_cons, List.foldl_nil, ih]
    unfold recordHit
    rcases le_or_lt rs.length 9 with h | h
    · have h1 : rs.length - 10 = 0 := by omega
      have h2 : (rs ++ [r]).length - 10 = 0 := by
        simp only [List.length_append, List.length_singleton]; omega
      rw [h1, h2, List.drop_zero, List.drop_zero, if_neg]
      simp only [List.length_append, List.length_singleton]
      omega
    · have hlen : (rs.drop (rs.length - 10)).length = 10 := by
        rw [List.length_drop]; omega
      have h4 : (rs.drop (rs.length - 10) ++ [r]).length > 10 := by
        simp only [List.length_append, List.length_singleton, hlen]; omega
      rw [if_pos h4]
      have h5 : (1 : Nat) ≤ (rs.drop (rs.length - 10)).length := by omega
      rw [List.drop_append_of_le_length h5, List.drop_drop]
      have h6 : (rs ++ [r]).length - 10 = rs.length - 9 := by
        simp only [List.length_append, List.length_singleton]; omega
      have h7 : rs.length - 9 ≤ rs.length := by omega
      rw [h6, List.drop_append_of_le_length h7]
      have h8 : rs.length - 10 + 1 = rs.length - 9 := by omega
      rw [h8]

/-! ## Claim theorems -/

/-- C1: an entry with the code's fixed TTL is served as a hit exactly while
`now - createdAt < ttlSeconds`; a `search` on the cached key at
`createdAt + ttlSeconds - 1` is a cache hit, while at `createdAt + ttlSeconds`
it is treated as a miss, fetches from the backend (counting a backend call)
and overwrites the entry. -/
theorem cache_ttl_boundary (st : UserState) (k : String) (e : Entry)
    (hk : normalizeQuery k = k)
    (he : dictGet st.cache k = some e)
    (hex : e.expiry = CACHE_EXPIRY_SECONDS) :
    (∀ now : Int, now - e.timestamp < e.expiry ↔
      (search now k st).1.source ≠ "backend") ∧
    ((search (e.timestamp + e.expiry - 1) k st).1 =
      ⟨e.result, exactHitSource e⟩ ∧
     (search (e.timestamp + e.expiry - 1) k st).1.source ≠ "backend") ∧
    ((search (e.timestamp + e.expiry) k st).1.source = "backend" ∧
     (search (e.timestamp + e.expiry) k st).2.analytics.totalBackendCalls =
       st.analytics.totalBackendCalls + 1 ∧
     dictGet (search (e.timestamp + e.expiry) k st).2.cache k =
       some ⟨"Backend result for " ++ k, e.timestamp + e.expiry,
         CACHE_EXPIRY_SECONDS, "backend", none⟩) := by
  have hcore : ∀ now : Int, searchCore now k st =
      if now - e.timestamp < CACHE_EXPIRY_SECONDS then
        (⟨e.result, exactHitSource e⟩, { st with analytics := hitInc st.analytics })
      else missFill now k k st := by
    intro now
    unfold searchCore
    rw [hk, he]
  have hout : ∀ now : Int, (search now k st).1 = (searchCore now k st).1 :=
    fun _ => rfl
  have hstate : ∀ now : Int, (search now k st).2.cache = (searchCore now k st).2.cache ∧
      (search now k st).2.analytics = (searchCore now k st).2.analytics :=
    fun _ => ⟨rfl, rfl⟩
  refine ⟨?_, ?_, ?_⟩
  · intro now
    rw [hout, hcore]
    constructor
    · intro hlive
      rw [if_pos (by rw [← hex]; exact hlive)]
      exact exactHitSource_ne e
    · intro hne
      by_contra hdead
      rw [if_neg (by rw [hex] at hdead; exact hdead)] at hne
      exact hne rfl
  · have hlive : e.timestamp + e.expiry - 1 - e.timestamp < CACHE_EXPIRY_SECONDS := by
      rw [hex]; omega
    constructor
    · rw [hout, hcore, if_pos hlive]
    · rw [hout, hcore, if_pos hlive]
      exact exactHitSource_ne e
  · have hdead : ¬ (e.timestamp + e.expiry - e.timestamp < CACHE_EXPIRY_SECONDS) := by
      rw [hex]; omega
    refine ⟨?_, ?_, ?_⟩
    · rw [hout, hcore, if_neg hdead]
      rfl
    · rw [(hstate _).2, hcore, if_neg hdead]
      rfl
    · rw [(hstate _).1, hcore, if_neg hdead]
      show dictGet (dictSet st.cache k _) k = _
      rw [dictGet_dictSet_self]

/-- Witness for C1 at a concrete one-entry cache. -/
theorem cache_ttl_boundary_witness :
    (search 299 "k" ⟨[("k", ⟨"r", 0, 300, "backend", none⟩)], [], [], ⟨0, 0, 0⟩⟩).1.source
      ≠ "backend" ∧
    (search 300 "k" ⟨[("k", ⟨"r", 0, 300, "backend", none⟩)], [], [], ⟨0, 0, 0⟩⟩).1.source
      = "backend" := by
  have h := cache_ttl_boundary
    ⟨[("k", ⟨"r", 0, 300, "backend", none⟩)], [], [], ⟨0, 0, 0⟩⟩
    "k" ⟨"r", 0, 300, "backend", none⟩ (by decide) rfl rfl
  refine ⟨?_, ?_⟩
  · have := h.2.1.2
    norm_num at this ⊢
    exact this
  · have := h.2.2.1
    norm_num at this ⊢
    exact this

/-- C4: the per-user hit log is a FIFO buffer capped at 10: every `search`
appends exactly one `{query, source, time}` record through `recordHit`, which
drops the oldest record beyond 10; folding any 15 records from the empty log
leaves exactly the 10 most recent records in order. -/
theorem hitlog_fifo_bound :
    (∀ (now : Int) (q : String) (st : UserState),
      (search now q st).2.hitLog =
        recordHit st.hitLog ⟨q, (search now q st).1.source, now⟩) ∧
    (∀ rs : List HitRec, List.foldl recordHit [] rs = rs.drop (rs.length - 10)) ∧
    (∀ rs : List HitRec, rs.length = 15 →
      (List.foldl recordHit [] rs).length = 10 ∧
      List.foldl recordHit [] rs = rs.drop 5) := by
  refine ⟨search_hitLog, foldl_recordHit, ?_⟩
  intro rs h15
  rw [foldl_recordHit, h15]
  refine ⟨?_, rfl⟩
  rw [List.length_drop, h15]

/-- A concrete run of 15 records for the C4 witness. -/
def c4records : List HitRec :=
  (List.range 15).map fun i => ⟨"q" ++ toString i, "backend", (i : Int)⟩

/-- Witness for C4: folding the 15 concrete records leaves the last 10. -/
theorem hitlog_fifo_bound_witness :
    c4records.length = 15 ∧
    (List.foldl recordHit [] c4records).length = 10 ∧
    List.foldl recordHit [] c4records = c4records.drop 5 := by
  have h := hitlog_fifo_bound.2.2 c4records (by decide)
  exact ⟨by decide, h.1, h.2⟩

/-- C3: a prefetch candidate is written into the cache (source `"predicted"`,
its confidence recorded, `createdAt = now`) exactly when its confidence
reaches the current threshold and no live entry sits at its normalized key;
below-threshold candidates and candidates whose key is already live leave the
cache untouched. -/
theorem prefetch_confidence_gating (thr : ℚ) (now : Int) (cache : Cache)
    (p : Json) (rawq : String) (conf : ℚ)
    (hq : predQuery p = some rawq) (hc : predConfidence p = some conf) :
    (thr ≤ conf ∧ liveAt cache (normalizeQuery rawq) now = false →
      prefetchPredictions thr now [p] cache =
        (dictSet cache (normalizeQuery rawq)
          ⟨"Predicted backend result for " ++ rawq, now, CACHE_EXPIRY_SECONDS,
            "predicted", some conf⟩, false) ∧
      dictGet (prefetchPredictions thr now [p] cache).1 (normalizeQuery rawq) =
        some ⟨"Predicted backend result for " ++ rawq, now, CACHE_EXPIRY_SECONDS,
          "predicted", some conf⟩) ∧
    (conf < thr ∨ liveAt cache (normalizeQuery rawq) now = true →
      prefetchPredictions thr now [p] cache = (cache, false)) := by
  constructor
  · rintro ⟨hthr, hlive⟩
    have heq : prefetchPredictions thr now [p] cache =
        (dictSet cache (normalizeQuery rawq)
          ⟨"Predicted backend result for " ++ rawq, now, CACHE_EXPIRY_SECONDS,
            "predicted", some conf⟩, false) := by
      unfold prefetchPredictions
      rw [hq, hc]
      dsimp only
      rw [if_neg (not_lt.2 hthr), hlive]
      rfl
    exact ⟨heq, by rw [heq]; exact dictGet_dictSet_self _ _ _⟩
  · intro h
    unfold prefetchPredictions
    rw [hq, hc]
    dsimp only
    rcases h with h | h
    · rw [if_pos h]
      rfl
    · rw [h]
      split
      · rfl
      · rfl

/-- Witness for C3: an above-threshold candidate on an empty cache is
written; the same candidate below the threshold leaves the cache unchanged. -/
theorem prefetch_confidence_gating_witness :
    prefetchPredictions (6/10) 7
        [Json.obj [("query", Json.str "Next Q"), ("confidence", Json.float (7/10))]] [] =
      ([("next q", ⟨"Predicted backend result for Next Q", 7, 300, "predicted",
        some (7/10)⟩)], false) ∧
    prefetchPredictions (8/10) 7
        [Json.obj [("query", Json.str "Next Q"), ("confidence", Json.float (7/10))]] [] =
      ([], false) := by
  constructor
  · have h := (prefetch_confidence_gating (6/10) 7 []
      (Json.obj [("query", Json.str "Next Q"), ("confidence", Json.float (7/10))])
      "Next Q" (7/10) rfl rfl).1 ⟨by norm_num, rfl⟩
    exact h.1
  · exact (prefetch_confidence_gating (8/10) 7 []
      (Json.obj [("query", Json.str "Next Q"), ("confidence", Json.float (7/10))])
      "Next Q" (7/10) rfl rfl).2 (Or.inl (by norm_num))

/-- C6: each `search` resolution increments `totalBackendCalls` by one on a
backend miss and increments both `totalCacheHits` and `apiCallsSaved` by one
on any hit, whatever its non-backend source; the derived miss rate is
`missCount / (missCount + hitCount)` over the current hit log (misses being
the records tagged `"backend"`), and `0.0` on an empty log. -/
theorem analytics_counters :
    (∀ (now : Int) (q : String) (st : UserState),
      ((search now q st).1.source = "backend" →
        (search now q st).2.analytics =
          ⟨st.analytics.apiCallsSaved, st.analytics.totalBackendCalls + 1,
            st.analytics.totalCacheHits⟩) ∧
      ((search now q st).1.source ≠ "backend" →
        (search now q st).2.analytics =
          ⟨st.analytics.apiCallsSaved + 1, st.analytics.totalBackendCalls,
            st.analytics.totalCacheHits + 1⟩)) ∧
    (∀ log : List HitRec,
      missRateOf log =
        (missCountOf log : ℚ) / ((missCountOf log : ℚ) + (hitCountOf log : ℚ)) ∧
      (log = [] → missRateOf log = 0)) ∧
    (∀ (now : Int) (st : UserState),
      (dashboardView now st).missRate = missRateOf st.hitLog) := by
  refine ⟨?_, ?_, fun now st => rfl⟩
  · intro now q st
    have han : (search now q st).2.analytics = (searchCore now q st).2.analytics := rfl
    have hsrc : (search now q st).1 = (searchCore now q st).1 := rfl
    rcases searchCore_cases now q st with ⟨hs, ha⟩ | ⟨hs, ha⟩
    · constructor
      · intro _
        rw [han, ha]
        rfl
      · intro hne
        rw [hsrc] at hne
        exact absurd hs hne
    · constructor
      · intro hb
        rw [hsrc] at hb
        exact absurd hb hs
      · intro _
        rw [han, ha]
        rfl
  · intro log
    constructor
    · unfold missRateOf
      split
      · rfl
      · rename_i hz
        have hm : missCountOf log = 0 := by omega
        have hh : hitCountOf log = 0 := by omega
        rw [hm, hh]
        norm_num
    · intro hnil
      subst hnil
      rfl

/-- Witness for C6: a miss then an exact hit on a fresh user state. -/
theorem analytics_counters_witness :
    (search 0 "a" ⟨[], [], [], ⟨0, 0, 0⟩⟩).1.source = "backend" ∧
    (search 0 "a" ⟨[], [], [], ⟨0, 0, 0⟩⟩).2.analytics = ⟨0, 1, 0⟩ ∧
    (search 1 "a" (search 0 "a" ⟨[], [], [], ⟨0, 0, 0⟩⟩).2).1.source ≠ "backend" ∧
    (search 1 "a" (search 0 "a" ⟨[], [], [], ⟨0, 0, 0⟩⟩).2).2.analytics = ⟨1, 1, 1⟩ ∧
    missRateOf [] = 0 := by
  have hmiss : (search 0 "a" ⟨[], [], [], ⟨0, 0, 0⟩⟩).1.source = "backend" := by decide
  have hhit : (search 1 "a" (search 0 "a" ⟨[], [], [], ⟨0, 0, 0⟩⟩).2).1.source =
      "cache" := by decide
  refine ⟨hmiss, ?_, ?_, ?_, (analytics_counters.2.1 []).2 rfl⟩
  · have h := ((analytics_counters.1 0 "a" ⟨[], [], [], ⟨0, 0, 0⟩⟩).1) hmiss
    exact h
  · rw [hhit]
    decide
  · have h := ((analytics_counters.1 1 "a" (search 0 "a" ⟨[], [], [], ⟨0, 0, 0⟩⟩).2).2)
      (by rw [hhit]; decide)
    rw [h]
    have : (search 0 "a" ⟨[], [], [], ⟨0, 0, 0⟩⟩).2.analytics = ⟨0, 1, 0⟩ := by decide
    rw [this]

/-- C7: `set_confidence` accepts exactly the float bodies in `[0, 1]`,
installing the new threshold and reporting success; any other body (out of
range, integer, non-numeric or missing) is rejected and the threshold is
unchanged. -/
theorem set_confidence_validation :
    (∀ q thr : ℚ, 0 ≤ q → q ≤ 1 →
      setConfidence (some (Json.float q)) thr = (q, true)) ∧
    (∀ (body : Option Json) (thr : ℚ), ¬ validConfidenceBody body →
      setConfidence body thr = (thr, false)) := by
  constructor
  · intro q thr h0 h1
    show (if 0 ≤ q ∧ q ≤ 1 then ((q : ℚ), true) else (thr, false)) = (q, true)
    rw [if_pos ⟨h0, h1⟩]
  · intro body thr hinv
    match body with
    | none => rfl
    | some .null => rfl
    | some (.bool b) => rfl
    | some (.int n) => rfl
    | some (.str s) => rfl
    | some (.arr xs) => rfl
    | some (.obj kvs) => rfl
    | some (.float q) =>
      show (if 0 ≤ q ∧ q ≤ 1 then ((q : ℚ), true) else (thr, false)) = (thr, false)
      rw [if_neg]
      intro hc
      exact hinv ⟨q, rfl, hc⟩

/-- Witness for C7: an in-range float is accepted; an out-of-range float, a
JSON integer (a Python `int`, not `float`) and a missing field are rejected
with the threshold unchanged. -/
theorem set_confidence_validation_witness :
    setConfidence (some (Json.float (1/2))) (6/10) = (1/2, true) ∧
    setConfidence (some (Json.float (3/2))) (6/10) = (6/10, false) ∧
    setConfidence (some (Json.int 1)) (6/10) = (6/10, false) ∧
    setConfidence none (6/10) = (6/10, false) := by
  refine ⟨set_confidence_validation.1 (1/2) (6/10) (by norm_num) (by norm_num),
    set_confidence_validation.2 (some (Json.float (3/2))) (6/10) ?_,
    set_confidence_validation.2 (some (Json.int 1)) (6/10) ?_,
    set_confidence_validation.2 none (6/10) ?_⟩
  · rintro ⟨q, hq, h0, h1⟩
    obtain rfl : q = 3/2 := by
      injection hq with hq
      injection hq with hq
      exact hq.symm
    norm_num at h1
  · rintro ⟨q, hq, -, -⟩
    injection hq with hq
    injection hq
  · rintro ⟨q, hq, -, -⟩
    exact Option.noConfusion hq

/-- C8: CSV export renders the user's cache one row per entry as
`(query, source, timestamp, ttl)` with no filtering — entries whose TTL has
expired still get a row. -/
theorem export_csv_raw (st : UserState) (now : Int) :
    exportDashboard "csv" st =
      .csv ["query", "source", "timestamp", "expiry"]
        (st.cache.map fun p => (p.1, p.2.source, p.2.timestamp, p.2.expiry)) ∧
    (st.cache.map fun p => (p.1, p.2.source, p.2.timestamp, p.2.expiry)).length =
      st.cache.length ∧
    (∀ p ∈ st.cache, ¬ (now - p.2.timestamp < p.2.expiry) →
      (p.1, p.2.source, p.2.timestamp, p.2.expiry) ∈
        (st.cache.map fun p => (p.1, p.2.source, p.2.timestamp, p.2.expiry))) := by
  refine ⟨rfl, List.length_map _ _, ?_⟩
  intro p hp _
  exact List.mem_map_of_mem _ hp

/-- Witness for C8: a cache holding one live and one expired entry exports
both rows. -/
theorem export_csv_raw_witness :
    exportDashboard "csv" ⟨[("a", ⟨"r1", 0, 300, "backend", none⟩),
        ("b", ⟨"r2", 500, 300, "predicted", none⟩)], [], [], ⟨0, 0, 0⟩⟩ =
      .csv ["query", "source", "timestamp", "expiry"]
        [("a", "backend", 0, 300), ("b", "predicted", 500, 300)] ∧
    ¬ ((1000 : Int) - 0 < 300) ∧
    ("a", "backend", (0 : Int), (300 : Int)) ∈
      [("a", "backend", (0 : Int), (300 : Int)), ("b", "predicted", 500, 300)] := by
  have h := export_csv_raw ⟨[("a", ⟨"r1", 0, 300, "backend", none⟩),
    ("b", ⟨"r2", 500, 300, "predicted", none⟩)], [], [], ⟨0, 0, 0⟩⟩ 1000
  refine ⟨h.1, by norm_num, ?_⟩
  have hm := h.2.2 ("a", ⟨"r1", 0, 300, "backend", none⟩) (by simp) (by norm_num)
  simp only [List.map_cons, List.map_nil] at hm
  exact hm

/-- C9: `refresh` unconditionally overwrites the entry at the normalized key
with a backend-tagged entry timestamped at the refresh time and returns the
fresh result, for every prior cache state; all other keys and the rest of the
user state are untouched. -/
theorem force_refresh_overwrite (st : UserState) (now : Int) (q : String) :
    (refresh now q st).1 = "Backend result for " ++ q ++ " (refreshed)" ∧
    dictGet (refresh now q st).2.cache (normalizeQuery q) =
      some ⟨"Backend result for " ++ q ++ " (refreshed)", now,
        CACHE_EXPIRY_SECONDS, "backend", none⟩ ∧
    (∀ k, k ≠ normalizeQuery q →
      dictGet (refresh now q st).2.cache k = dictGet st.cache k) ∧
    (refresh now q st).2.hitLog = st.hitLog ∧
    (refresh now q st).2.predictions = st.predictions ∧
    (refresh now q st).2.analytics = st.analytics := by
  refine ⟨rfl, ?_, ?_, rfl, rfl, rfl⟩
  · exact dictGet_dictSet_self _ _ _
  · intro k hk
    exact dictGet_dictSet_ne _ _ _ _ hk

/-- Witness for C9: refreshing over a live predicted entry replaces it with a
backend entry stamped at the refresh time. -/
theorem force_refresh_overwrite_witness :
    (refresh 50 "A" ⟨[("a", ⟨"old", 10, 300, "predicted", some (9/10)⟩)], [], [],
      ⟨0, 0, 0⟩⟩).1 = "Backend result for A (refreshed)" ∧
    dictGet (refresh 50 "A" ⟨[("a", ⟨"old", 10, 300, "predicted", some (9/10)⟩)], [], [],
      ⟨0, 0, 0⟩⟩).2.cache "a" =
      some ⟨"Backend result for A (refreshed)", 50, 300, "backend", none⟩ ∧
    dictGet (refresh 50 "A" ⟨[("a", ⟨"old", 10, 300, "predicted", some (9/10)⟩), ("b", ⟨"keep", 0, 300, "backend", none⟩)], [], [],
      ⟨0, 0, 0⟩⟩).2.cache "b" = some ⟨"keep", 0, 300, "backend", none⟩ := by
  have h1 := force_refresh_overwrite
    ⟨[("a", ⟨"old", 10, 300, "predicted", some (9/10)⟩)], [], [], ⟨0, 0, 0⟩⟩ 50 "A"
  have h2 := force_refresh_overwrite
    ⟨[("a", ⟨"old", 10, 300, "predicted", some (9/10)⟩),
      ("b", ⟨"keep", 0, 300, "backend", none⟩)], [], [], ⟨0, 0, 0⟩⟩ 50 "A"
  refine ⟨h1.1, ?_, ?_⟩
  · have := h1.2.1
    simpa using this
  · have := h2.2.2.1 "b" (by decide)
    rw [this]
    rfl

theorem sameKeys_getUserData (g : Global) (u : String) (h : sameKeys g) :
    sameKeys (getUserData u g) := by
  unfold getUserData
  split
  · exact h
  · intro v
    by_cases hv : v = u
    · subst hv
      simp [updMap]
    · simpa [updMap, hv] using h v

theorem sameKeys_writeBack (g : Global) (u : String) (st : UserState)
    (h : sameKeys g) : sameKeys (writeBack u st g) := by
  intro v
  by_cases hv : v = u
  · subst hv
    simp [writeBack, updMap]
  · simpa [writeBack, updMap, hv] using h v

/-- C10: every endpoint lazily creates an unseen user's context (empty cache,
empty hit log, empty prediction list, zeroed counters) instead of failing;
the four per-user maps always hold the same key set afterwards; and the
dashboard of a fresh user shows an empty snapshot, empty hit list, miss rate
`0.0`, zero counters. -/
theorem lazy_user_context (g : Global) (u : String) (hkeys : sameKeys g) :
    (g.userCache u = none →
      (getUserData u g).userCache u = some [] ∧
      (getUserData u g).userHitLog u = some [] ∧
      (getUserData u g).userPredictions u = some [] ∧
      (getUserData u g).userAnalytics u = some ⟨0, 0, 0⟩) ∧
    sameKeys (getUserData u g) ∧
    (∀ (now : Int) (q : String), sameKeys (searchG now u q g).2) ∧
    (∀ now : Int, sameKeys (dashboardG now u g).2) ∧
    sameKeys (predictG u g).2 ∧
    (∀ (now : Int) (q : String), sameKeys (refreshG now u q g).2) ∧
    (∀ fmt : String, sameKeys (exportG fmt u g).2) ∧
    (g.userCache u = none → ∀ now : Int,
      (dashboardG now u g).1 = ⟨[], [], 0, [], 0, 0, 0, 0⟩) := by
  have hfresh : g.userCache u = none →
      (getUserData u g).userCache u = some [] ∧
      (getUserData u g).userHitLog u = some [] ∧
      (getUserData u g).userPredictions u = some [] ∧
      (getUserData u g).userAnalytics u = some ⟨0, 0, 0⟩ := by
    intro hn
    unfold getUserData
    rw [hn]
    simp [updMap]
  refine ⟨hfresh, sameKeys_getUserData g u hkeys,
    fun now q => sameKeys_writeBack _ u _ (sameKeys_getUserData g u hkeys),
    fun now => sameKeys_getUserData g u hkeys,
    sameKeys_getUserData g u hkeys,
    fun now q => sameKeys_writeBack _ u _ (sameKeys_getUserData g u hkeys),
    fun fmt => sameKeys_getUserData g u hkeys, ?_⟩
  intro hn now
  obtain ⟨h1, h2, h3, h4⟩ := hfresh hn
  show dashboardView now (userStateOf u (getUserData u g)) = _
  unfold userStateOf
  rw [h1, h2, h3, h4]
  rfl

/-- Witness for C10: a fresh user's dashboard on the empty process state. -/
theorem lazy_user_context_witness :
    (dashboardG 5 "alice" emptyGlobal).1 =
      ⟨[], [], 0, [], 0, 0, 0, 0⟩ := by
  have h := lazy_user_context emptyGlobal "alice"
    (fun u => by simp [emptyGlobal])
  exact h.2.2.2.2.2.2.2 rfl 5

/-- A cache state separating the code's fuzzy scan (over all keys) from the
claimed scan (over live keys only): the key closest to the query is expired,
while a farther key that still clears the 0.85 cutoff is live. -/
def c2cache : Cache :=
  [("weather in delhix", ⟨"stale result", 0, 300, "backend", none⟩),
   ("weathr in delhi", ⟨"fresh result", 200, 300, "backend", none⟩)]

def c2state : UserState := ⟨c2cache, [], [], ⟨0, 0, 0⟩⟩

set_option maxRecDepth 40000

/-- C2 counterexample: at time 300 the live key set still contains
`"weathr in delhi"` (similarity 30/31 ≥ 0.85 to the query), so the claimed
lookup would return its entry as a fuzzy hit; the code instead scans all
keys, snaps to the expired `"weather in delhix"` (similarity 32/33), finds it
dead and reports a backend miss. -/
theorem fuzzy_scan_counterexample :
    dictGet c2cache (normalizeQuery "weather in delhi") = none ∧
    getCloseMatches (normalizeQuery "weather in delhi") (liveKeys c2cache 300) (mkRat 85 100) =
      some "weathr in delhi" ∧
    liveAt c2cache "weathr in delhi" 300 = true ∧
    getCloseMatches (normalizeQuery "weather in delhi") (c2cache.map Prod.fst) (mkRat 85 100) =
      some "weather in delhix" ∧
    (search 300 "weather in delhi" c2state).1.source = "backend" ∧
    (search 300 "weather in delhi" c2state).1.result ≠ "fresh result" := by
  refine ⟨rfl, ?_, rfl, ?_, ?_, ?_⟩
  · decide
  · decide
  · decide
  · decide

/-- C2 (amended): the lookup first tries the normalized key exactly — any
entry there, live or expired, pre-empts the fuzzy path (an expired exact
entry makes the lookup a miss). Only when no exact entry exists does it scan
all of the user's cached keys (live and expired alike) for the single closest
key of similarity ratio ≥ 0.85; the result is a fuzzy hit only when that best
match's entry is live, and otherwise — expired best match or no match over
the cutoff — the lookup is a backend miss. -/
theorem search_fuzzy_fallback (st : UserState) (now : Int) (q : String) :
    (∀ fk e, dictGet st.cache (normalizeQuery q) = none →
      getCloseMatches (normalizeQuery q) (st.cache.map Prod.fst) (mkRat 85 100) = some fk →
      dictGet st.cache fk = some e →
      ((now - e.timestamp < CACHE_EXPIRY_SECONDS →
        (search now q st).1 = ⟨e.result, "fuzzy_cache"⟩) ∧
       (¬ (now - e.timestamp < CACHE_EXPIRY_SECONDS) →
        (search now q st).1.source = "backend"))) ∧
    (dictGet st.cache (normalizeQuery q) = none →
      getCloseMatches (normalizeQuery q) (st.cache.map Prod.fst) (mkRat 85 100) = none →
      (search now q st).1.source = "backend") ∧
    (∀ e, dictGet st.cache (normalizeQuery q) = some e →
      ¬ (now - e.timestamp < CACHE_EXPIRY_SECONDS) →
      (search now q st).1.source = "backend") := by
  have hout : (search now q st).1 = (searchCore now q st).1 := rfl
  refine ⟨?_, ?_, ?_⟩
  · intro fk e hnone hmatch he
    constructor
    · intro hlive
      rw [hout]
      unfold searchCore
      simp only [hnone, hmatch, he, if_pos hlive]
    · intro hdead
      rw [hout]
      unfold searchCore
      simp only [hnone, hmatch, he, if_neg hdead]
      rfl
  · intro hnone hmatch
    rw [hout]
    unfold searchCore
    rw [hnone, hmatch]
    rfl
  · intro e he hdead
    rw [hout]
    unfold searchCore
    simp only [he, if_neg hdead]
    rfl

/-- Witness for the amended C2: with only the live key `"weathr in delhi"`
cached, the query `"weather in delhi"` is served as a fuzzy hit; with only an
expired entry at the exact key, the lookup is a backend miss. -/
theorem search_fuzzy_fallback_witness :
    (search 300 "weather in delhi"
      ⟨[("weathr in delhi", ⟨"fresh result", 200, 300, "backend", none⟩)], [], [],
        ⟨0, 0, 0⟩⟩).1 = ⟨"fresh result", "fuzzy_cache"⟩ ∧
    (search 300 "stale key"
      ⟨[("stale key", ⟨"old", 0, 300, "backend", none⟩)], [], [], ⟨0, 0, 0⟩⟩).1.source =
      "backend" := by
  constructor
  · exact ((search_fuzzy_fallback
      ⟨[("weathr in delhi", ⟨"fresh result", 200, 300, "backend", none⟩)], [], [],
        ⟨0, 0, 0⟩⟩ 300 "weather in delhi").1 "weathr in delhi"
      ⟨"fresh result", 200, 300, "backend", none⟩ (by decide) (by decide) rfl).1
      (by norm_num [CACHE_EXPIRY_SECONDS])
  · exact (search_fuzzy_fallback
      ⟨[("stale key", ⟨"old", 0, 300, "backend", none⟩)], [], [], ⟨0, 0, 0⟩⟩
      300 "stale key").2.2 ⟨"old", 0, 300, "backend", none⟩ (by decide)
      (by norm_num [CACHE_EXPIRY_SECONDS])

/-- The candidate list of the C5 counterexample: the first parsed entry has a
confidence but no `"query"` field, the second is fully well-formed. -/
def c5preds : List Json :=
  [Json.obj [("confidence", Json.float (mkRat 9 10))],
   Json.obj [("query", Json.str "next q"), ("confidence", Json.float (mkRat 9 10))]]

/-- C5 counterexample: an entry missing the `"query"` field is not skipped —
`pred["query"]` raises, the prefetch task aborts with the cache untouched and
the well-formed second candidate is never prefetched; processing the second
candidate alone (what skipping the first would amount to) does write it. -/
theorem prefetch_missing_query_counterexample :
    prefetchPredictions (mkRat 6 10) 0 c5preds [] = ([], true) ∧
    dictGet (prefetchPredictions (mkRat 6 10) 0 c5preds []).1 "next q" = none ∧
    (prefetchPredictions (mkRat 6 10) 0 (c5preds.drop 1) []).1 =
      [("next q", ⟨"Predicted backend result for next q", 0, 300, "predicted",
        some (mkRat 9 10)⟩)] := by
  refine ⟨rfl, rfl, ?_⟩
  decide

/-- C5 (amended): the prediction pipeline returns an empty candidate list on
network failure, on replies without a bracketed span, and on spans that fail
to parse as JSON — soft failures never surfaced to the lookup caller. Parsed
entries, however, are not validated: a candidate without a `"query"` field
raises inside the background prefetch task (contained there), aborting the
remaining candidates rather than being skipped; a missing `"confidence"`
field does default to `1.0`. -/
theorem llm_soft_failure :
    getPredictionsFromLLM .failure = [] ∧
    (∀ content : String, firstBracketSpan content.data = none →
      getPredictionsFromLLM (.ok content) = []) ∧
    (∀ (content : String) (span : List Char),
      firstBracketSpan content.data = some span →
      pyJsonLoads ⟨replaceQuotes span⟩ = none →
      getPredictionsFromLLM (.ok content) = []) ∧
    (∀ (thr : ℚ) (now : Int) (cache : Cache) (p : Json) (rest : List Json),
      predQuery p = none →
      prefetchPredictions thr now (p :: rest) cache = (cache, true)) ∧
    (∀ kvs : List (String × Json), pyLookup kvs "confidence" = none →
      predConfidence (Json.obj kvs) = some 1) := by
  refine ⟨rfl, ?_, ?_, ?_, ?_⟩
  · intro content h
    unfold getPredictionsFromLLM
    dsimp only
    rw [h]
  · intro content span hspan hparse
    unfold getPredictionsFromLLM
    dsimp only
    rw [hspan]
    dsimp only
    rw [hparse]
  · intro thr now cache p rest hq
    unfold prefetchPredictions
    rw [hq]
  · intro kvs h
    unfold predConfidence
    dsimp only
    rw [h]

/-- Witness for the amended C5: the three soft-failure shapes on concrete
replies, the missing-query crash, and the confidence default. -/
theorem llm_soft_failure_witness :
    getPredictionsFromLLM .failure = [] ∧
    getPredictionsFromLLM (.ok "no array in this reply") = [] ∧
    getPredictionsFromLLM (.ok "bad [ not json ] text") = [] ∧
    prefetchPredictions (mkRat 6 10) 3 [Json.obj [("oops", Json.null)]] [] = ([], true) ∧
    predConfidence (Json.obj [("query", Json.str "a")]) = some 1 := by
  refine ⟨llm_soft_failure.1, ?_, ?_, ?_, ?_⟩
  · exact llm_soft_failure.2.1 "no array in this reply" (by decide)
  · exact llm_soft_failure.2.2.1 "bad [ not json ] text" "[ not json ]".data
      (by decide) (by rfl)
  · exact llm_soft_failure.2.2.2.1 (mkRat 6 10) 3 [] (Json.obj [("oops", Json.null)])
      [] rfl
  · exact llm_soft_failure.2.2.2.2 [("query", Json.str "a")] rfl

end Cachecraft
